import Mathlib

/-!
Verification of the lilacode connection/session protocol layer.

The development shallowly embeds the three source components:

* `LilaClient` (src/client.ts): the socket state machine, pending-send
  queue, session handshake and inbound-data handling.  The socket is
  modelled as a write log plus a destroyed flag; the asynchronous
  callbacks registered on the socket (connection established, error,
  close, 5-second timeout) become events of a step function, and the
  promise returned by connect is modelled by a resolution slot that
  only the first resolve call fills.
* `LilaSession.handleResponse` (session layer): classification of a
  decoded inbound payload by its discriminator fields.
* `LilaServer` (server.ts): the terminal-launching lifecycle.

Machine strings are Lean `String`s, JSON documents are an inductive
`Json` value; the runtime JSON parser is a parameter of the inbound
data handler.
-/

namespace Lilacode

/-- A socket handle: the ordered log of strings passed to write, and
whether the handle has been destroyed. -/
structure Socket where
  writes : List String
  destroyed : Bool
deriving DecidableEq

/-- State of a LilaClient instance: the fields of the class in
src/client.ts, plus two observation logs: the arguments of every
invocation of the registered onStateChange observer, and the
resolution slot of the promise created by the most recent connect call
that actually opened a handle (none while pending). -/
structure LilaClient where
  socket : Option Socket
  state : String
  sessionId : String
  messageQueue : List String
  notifications : List String
  resolved : Option Bool
deriving DecidableEq

namespace LilaClient

/-- The constructor: state starts "disconnected", the session id is
generated once (modelled as a parameter), queue empty, no socket. -/
def initialClient (sid : String) : LilaClient :=
  { socket := none
    state := "disconnected"
    sessionId := sid
    messageQueue := []
    notifications := []
    resolved := none }

/-- setState from src/client.ts: assigns the state and invokes the
registered onStateChange observer unconditionally (the model assumes an
observer is registered, and records each invocation). -/
def setState (c : LilaClient) (s : String) : LilaClient :=
  { c with state := s, notifications := c.notifications ++ [s] }

/-- The condition of the early return in connect and of the transmit
branch of send: a socket exists and is not destroyed. -/
def socketLive (c : LilaClient) : Bool :=
  match c.socket with
  | some s => !s.destroyed
  | none => false

/-- Append one string to the write log of the current socket (models
socket.write). Identity when no socket exists. -/
def writeSocket (c : LilaClient) (u : String) : LilaClient :=
  match c.socket with
  | some s => { c with socket := some { s with writes := s.writes ++ [u] } }
  | none => c

/-- The strings written so far to the current socket handle. -/
def socketWrites (c : LilaClient) : List String :=
  match c.socket with
  | some s => s.writes
  | none => []

/-- send from src/client.ts: if the socket is absent or destroyed,
push the payload onto the message queue; otherwise write the payload
followed by a newline to the socket. -/
def send (c : LilaClient) (code : String) : LilaClient :=
  match c.socket with
  | none => { c with messageQueue := c.messageQueue ++ [code] }
  | some s =>
    if s.destroyed then { c with messageQueue := c.messageQueue ++ [code] }
    else { c with socket := some { s with writes := s.writes ++ [code ++ "\n"] } }

/-- isConnected from src/client.ts: state equals "connected" and the
socket is non-null and not destroyed. -/
def isConnected (c : LilaClient) : Bool :=
  if c.state = "connected" then socketLive c else false

/-- Resolve the pending connect promise; a promise resolves at most
once, so later calls are ignored. -/
def resolve (c : LilaClient) (b : Bool) : LilaClient :=
  match c.resolved with
  | none => { c with resolved := some b }
  | some _ => c

/-- setupSession from src/client.ts: write the handshake line
consisting of "@session ", the session id and a newline, provided the
socket exists and is not destroyed. -/
def setupSession (c : LilaClient) : LilaClient :=
  match c.socket with
  | some s =>
    if s.destroyed then c
    else { c with socket := some { s with writes := s.writes ++ ["@session " ++ c.sessionId ++ "\n"] } }
  | none => c

/-- One iteration budgeted unfolding of the while loop of flushQueue:
shift the head of the queue and, when it is truthy (a non-empty
string), pass it to send.  The JavaScript loop runs until the queue is
empty; with a live socket each send leaves the queue untouched, so a
fuel equal to the initial queue length realises the loop exactly. -/
def flushLoop : Nat → LilaClient → LilaClient
  | 0, c => c
  | fuel + 1, c =>
    match c.messageQueue with
    | [] => c
    | code :: rest =>
      let c1 := { c with messageQueue := rest }
      flushLoop fuel (if code == "" then c1 else send c1 code)

/-- flushQueue from src/client.ts. -/
def flushQueue (c : LilaClient) : LilaClient :=
  flushLoop c.messageQueue.length c

/-- The connection-established callback passed to createConnection:
set state "connected", emit the handshake, drain the queue, resolve
the connect promise with true. -/
def onConnected (c : LilaClient) : LilaClient :=
  resolve (flushQueue (setupSession (setState c "connected"))) true

/-- The socket error handler: set state "error" and resolve the
connect promise with false (the error is logged, never thrown). -/
def onError (c : LilaClient) : LilaClient :=
  resolve (setState c "error") false

/-- The socket close handler: set state "disconnected". -/
def onClose (c : LilaClient) : LilaClient :=
  setState c "disconnected"

/-- The 5-second connect timeout constant from src/client.ts. -/
def connectTimeoutMs : Nat := 5000

/-- The timeout callback: if still "connecting", destroy the socket if
one exists, set state "error" and resolve the connect promise with
false; otherwise do nothing. -/
def onTimeout (c : LilaClient) : LilaClient :=
  if c.state = "connecting" then
    let c1 :=
      match c.socket with
      | some s => { c with socket := some { s with destroyed := true } }
      | none => c
    resolve (setState c1 "error") false
  else c

/-- The synchronous part of connect from src/client.ts: when a socket
exists and is not destroyed, return true immediately without touching
anything; otherwise set state "connecting", install a fresh handle and
leave the new promise pending (the second component is the immediate
resolution of the returned promise, none while in flight). -/
def connectStart (c : LilaClient) : LilaClient × Option Bool :=
  if socketLive c then (c, some true)
  else
    let c1 := setState c "connecting"
    ({ c1 with socket := some { writes := [], destroyed := false }, resolved := none }, none)

/-- disconnect from src/client.ts: destroy and drop the socket if one
exists, then set state "disconnected". -/
def disconnect (c : LilaClient) : LilaClient :=
  let c1 :=
    match c.socket with
    | some _ => { c with socket := none }
    | none => c
  setState c1 "disconnected"

/-- The events that can act on a client: the public calls (connect,
disconnect, send) and the asynchronous callbacks and runtime effects
on the handle.  remoteDestroyed is the runtime marking the handle
destroyed (remote teardown); the close callback runs later. -/
inductive Event where
  | connectCall
  | connectSuccess
  | socketError
  | socketClosed
  | timeoutFire
  | remoteDestroyed
  | disconnectCall
  | sendCall (code : String)
deriving DecidableEq

/-- One step of the client under an event.  Callback events are guarded
by the conditions under which the runtime can deliver them: the
connection-established callback needs a live handle still in the
"connecting" state, an error needs a handle to exist, remote teardown
needs a live handle.  Inapplicable events leave the client unchanged. -/
def step (c : LilaClient) (e : Event) : LilaClient :=
  match e with
  | Event.connectCall => (connectStart c).fst
  | Event.connectSuccess =>
    match c.socket with
    | some s => if c.state = "connecting" ∧ s.destroyed = false then onConnected c else c
    | none => c
  | Event.socketError =>
    match c.socket with
    | some _ => onError c
    | none => c
  | Event.socketClosed => onClose c
  | Event.timeoutFire => onTimeout c
  | Event.remoteDestroyed =>
    match c.socket with
    | some s => if s.destroyed then c else { c with socket := some { s with destroyed := true } }
    | none => c
  | Event.disconnectCall => disconnect c
  | Event.sendCall code => send c code

/-- Run a sequence of events from a client state. -/
def runClient (c : LilaClient) (es : List Event) : LilaClient :=
  es.foldl step c

end LilaClient

/-- A JSON document, the codomain of the runtime JSON parser.  Numbers
are modelled as integers; the discriminator fields the code inspects
are strings, so nothing in the claims depends on fractional values. -/
inductive Json where
  | null
  | bool (b : Bool)
  | num (n : Int)
  | str (s : String)
  | arr (xs : List Json)
  | obj (fields : List (String × Json))

namespace Json

/-- Property access response.key on a parsed document: a field lookup
on an object, undefined (none) on every other document. -/
def getField (r : Json) (key : String) : Option Json :=
  match r with
  | Json.obj fields => lookupField fields key
  | _ => none
where
  lookupField : List (String × Json) → String → Option Json
    | [], _ => none
    | (k, v) :: rest, key => if k == key then some v else lookupField rest key

/-- JavaScript truthiness of a JSON value: null, false, zero and the
empty string are falsy; every array and object is truthy. -/
def truthyV : Json → Bool
  | Json.null => false
  | Json.bool b => b
  | Json.num n => !(n == 0)
  | Json.str s => !(s == "")
  | Json.arr _ => true
  | Json.obj _ => true

/-- Truthiness of a possibly absent field (undefined is falsy). -/
def truthy : Option Json → Bool
  | none => false
  | some v => truthyV v

/-- A field value strictly equals the string s (JavaScript ===): only
a string with exactly that text passes. -/
def isStr (o : Option Json) (s : String) : Bool :=
  match o with
  | some (Json.str t) => t == s
  | _ => false

end Json

/-- The classification a payload receives in LilaSession.handleResponse:
which branch of the if/else chain runs, carrying what that branch
renders (the message field for success and error, the result field for
a value, the whole payload otherwise). -/
inductive RespClass where
  | success (message : Option Json)
  | errorResult (message : Option Json)
  | valueResult (result : Json)
  | unclassified (payload : Json)

namespace LilaSession

open Json

/-- LilaSession.handleResponse: test status strictly equal to
"success", then status strictly equal to "error", then truthiness of
the result field, else fall through to the generic branch. -/
def classify (r : Json) : RespClass :=
  if isStr (getField r "status") "success" then RespClass.success (getField r "message")
  else if isStr (getField r "status") "error" then RespClass.errorResult (getField r "message")
  else
    match getField r "result" with
    | some v => if truthyV v then RespClass.valueResult v else RespClass.unclassified r
    | none => RespClass.unclassified r

/-- Running handleResponse on a payload: property access on a JSON
null throws a TypeError (none); every other document is classified. -/
def handleResponseOpt : Json → Option RespClass
  | Json.null => none
  | r => some (classify r)

end LilaSession

namespace LilaClient

/-- The object the client builds when a chunk fails to parse: status
field "raw" and data field carrying the whole chunk verbatim. -/
def rawWrap (data : String) : Json :=
  Json.obj [("status", Json.str "raw"), ("data", Json.str data)]

/-- The guard of handleData: the chunk is falsy (empty) or trimming
it yields the empty string — that is, every character of the chunk is
whitespace. -/
def isBlank (data : String) : Bool :=
  data.toList.all (fun ch => ch.isWhitespace)

/-- handleData from src/client.ts, as the list of arguments passed to
the registered onResponse handler (the handleResponse of the session, see
LilaSession.handleResponseOpt): a whitespace-only chunk is discarded;
a chunk the parser accepts is delivered as parsed, and if the handler
throws on it (payload null) the surrounding catch additionally
delivers the raw wrapper; a chunk the parser rejects is delivered as
the raw wrapper.  The runtime JSON parser is the parameter parse. -/
def handleData (parse : String → Option Json) (data : String) : List Json :=
  if isBlank data then []
  else
    match parse data with
    | some r =>
      match LilaSession.handleResponseOpt r with
      | some _ => [r]
      | none => [r, rawWrap data]
    | none => [rawWrap data]

end LilaClient

/-- State of a LilaServer instance: the fields of the class in
server.ts.  Terminals are numbered in creation order: terminal holds
the id of the currently held terminal, terminalsCreated counts how
many were ever created, shownTerminals logs every show call, and
stateHistory logs every internal state assignment. -/
structure LilaServer where
  process : Option Nat
  state : String
  terminal : Option Nat
  terminalsCreated : Nat
  shownTerminals : List Nat
  stateHistory : List String
deriving DecidableEq

namespace LilaServer

/-- The constructor: no process handle, state "stopped", no terminal. -/
def initialServer : LilaServer :=
  { process := none
    state := "stopped"
    terminal := none
    terminalsCreated := 0
    shownTerminals := []
    stateHistory := [] }

/-- setState from server.ts: assigns the state (no observer). The
model additionally logs the assignment. -/
def setState (s : LilaServer) (st : String) : LilaServer :=
  { s with state := st, stateHistory := s.stateHistory ++ [st] }

/-- Whether the terminal-creation call of the host succeeds or throws;
a parameter of start, since the host environment decides it. -/
inductive LaunchOutcome where
  | ok
  | throws
deriving DecidableEq

/-- start from server.ts: early return true when a process handle is
held; otherwise set state "starting" and, inside the try block, create
a terminal, show it, set state "running" and resolve true — or, when
terminal creation throws, fall to the catch: set state "error" and
resolve false.  The returned boolean is the promise resolution; the
function is total, so no failure ever reaches the caller. -/
def start (o : LaunchOutcome) (s : LilaServer) : LilaServer × Bool :=
  match s.process with
  | some _ => (s, true)
  | none =>
    let s1 := setState s "starting"
    match o with
    | LaunchOutcome.ok =>
      let tid := s1.terminalsCreated
      let s2 := { s1 with terminal := some tid, terminalsCreated := tid + 1 }
      let s3 := { s2 with shownTerminals := s2.shownTerminals ++ [tid] }
      (setState s3 "running", true)
    | LaunchOutcome.throws => (setState s1 "error", false)

/-- stop from server.ts: dispose the terminal if one is held, kill the
process if a handle is held, set state "stopped". -/
def stop (s : LilaServer) : LilaServer :=
  let s1 :=
    match s.terminal with
    | some _ => { s with terminal := none }
    | none => s
  let s2 :=
    match s1.process with
    | some _ => { s1 with process := none }
    | none => s1
  setState s2 "stopped"

/-- The public operations of LilaServer. -/
inductive ServerOp where
  | startOp (o : LaunchOutcome)
  | stopOp
deriving DecidableEq

/-- One public operation applied to a server state. -/
def serverStep (s : LilaServer) (op : ServerOp) : LilaServer :=
  match op with
  | ServerOp.startOp o => (start o s).fst
  | ServerOp.stopOp => stop s

/-- Run a sequence of public operations from construction. -/
def runServer (ops : List ServerOp) : LilaServer :=
  ops.foldl serverStep initialServer

end LilaServer

/-- A concrete parser used for evaluation: on the chunk text "cex" it
returns the document an actual JSON parser returns for a braced
object whose single field result holds false; it rejects everything
else. -/
def parseResultFalse : String → Option Json :=
  fun s => if s == "cex" then some (Json.obj [("result", Json.bool false)]) else none

/-- A concrete parser used for evaluation: on the chunk text "ok" it
returns the document an actual JSON parser returns for a braced
object whose single field status holds the string "success"; it
rejects everything else. -/
def parseSuccessOnly : String → Option Json :=
  fun s => if s == "ok" then some (Json.obj [("status", Json.str "success")]) else none

/-- A hypothetical server state holding a process handle, used to
evaluate the early-return branch of start. -/
def heldServer : LilaServer :=
  { LilaServer.initialServer with process := some 0 }

namespace LilaClient

@[simp]
theorem resolve_socket (c : LilaClient) (b : Bool) : (resolve c b).socket = c.socket := by
  cases h : c.resolved <;> simp [resolve, h]

@[simp]
theorem resolve_state (c : LilaClient) (b : Bool) : (resolve c b).state = c.state := by
  cases h : c.resolved <;> simp [resolve, h]

@[simp]
theorem resolve_queue (c : LilaClient) (b : Bool) : (resolve c b).messageQueue = c.messageQueue := by
  cases h : c.resolved <;> simp [resolve, h]

@[simp]
theorem resolve_sid (c : LilaClient) (b : Bool) : (resolve c b).sessionId = c.sessionId := by
  cases h : c.resolved <;> simp [resolve, h]

@[simp]
theorem resolve_notifs (c : LilaClient) (b : Bool) : (resolve c b).notifications = c.notifications := by
  cases h : c.resolved <;> simp [resolve, h]

theorem resolve_pending (c : LilaClient) (b : Bool) (h : c.resolved = none) :
    (resolve c b).resolved = some b := by
  simp [resolve, h]

/-- send with a live socket: the payload plus newline goes to the
write log; queue, state and everything else are untouched. -/
theorem send_live (c : LilaClient) (s : Socket) (h1 : c.socket = some s)
    (h2 : s.destroyed = false) (code : String) :
    send c code = { c with socket := some { s with writes := s.writes ++ [code ++ "\n"] } } := by
  simp [send, h1, h2]

/-- send with no live socket: the payload is appended to the queue;
nothing is written and no other field changes. -/
theorem send_dead (c : LilaClient) (h : socketLive c = false) (code : String) :
    send c code = { c with messageQueue := c.messageQueue ++ [code] } := by
  cases hs : c.socket with
  | none => simp [send, hs]
  | some s =>
    have hd : s.destroyed = true := by
      simpa [socketLive, hs] using h
    simp [send, hs, hd]

@[simp]
theorem send_sid (c : LilaClient) (code : String) : (send c code).sessionId = c.sessionId := by
  cases hs : c.socket with
  | none => simp [send, hs]
  | some s => cases hd : s.destroyed <;> simp [send, hs, hd]

@[simp]
theorem send_state (c : LilaClient) (code : String) : (send c code).state = c.state := by
  cases hs : c.socket with
  | none => simp [send, hs]
  | some s => cases hd : s.destroyed <;> simp [send, hs, hd]

/-- Unfolding of one iteration of the flush loop on a non-empty
queue. -/
theorem flushLoop_cons (fuel : Nat) (c : LilaClient) (code : String) (rest : List String)
    (h : c.messageQueue = code :: rest) :
    flushLoop (fuel + 1) c =
      flushLoop fuel (if code == "" then { c with messageQueue := rest }
                      else send { c with messageQueue := rest } code) := by
  cases c
  simp only at h
  subst h
  rfl

/-- The flush loop with a live socket and fuel equal to the queue
length drains the queue completely: the truthy (non-empty) entries are
written in FIFO order, each with a trailing newline, and no other
field changes. -/
theorem flushLoop_live (q : List String) : ∀ (c : LilaClient) (s : Socket),
    c.socket = some s → s.destroyed = false → c.messageQueue = q →
    flushLoop q.length c =
      { c with
        messageQueue := [],
        socket := some { s with
          writes := s.writes ++ (q.filter (fun t => t != "")).map (fun t => t ++ "\n") } } := by
  induction q with
  | nil =>
    intro c s h1 h2 h3
    cases c
    cases s
    simp_all [flushLoop]
  | cons code rest ih =>
    intro c s h1 h2 h3
    rw [List.length_cons, flushLoop_cons rest.length c code rest h3]
    by_cases hc : code = ""
    · subst hc
      rw [if_pos (by simp)]
      rw [ih { c with messageQueue := rest } s (by simp [h1]) h2 (by simp)]
      simp
    · rw [if_neg (by simpa using hc)]
      rw [send_live { c with messageQueue := rest } s (by simp [h1]) h2 code]
      rw [ih _ { s with writes := s.writes ++ [code ++ "\n"] } (by simp) h2 (by simp)]
      simp [List.filter_cons, hc]

/-- onConnected with a pending promise and a live socket: state
becomes "connected" and is notified, the handshake line is written
first, then the truthy queued payloads in FIFO order each with a
trailing newline, the queue empties and the promise resolves true. -/
theorem onConnected_eq (c : LilaClient) (s : Socket) (h1 : c.socket = some s)
    (h2 : s.destroyed = false) (h3 : c.resolved = none) :
    onConnected c =
      { c with
        state := "connected",
        notifications := c.notifications ++ ["connected"],
        messageQueue := [],
        resolved := some true,
        socket := some { s with
          writes := s.writes ++ ("@session " ++ c.sessionId ++ "\n") ::
            (c.messageQueue.filter (fun t => t != "")).map (fun t => t ++ "\n") } } := by
  rw [onConnected]
  have hset : setupSession (setState c "connected") =
      { c with
        state := "connected",
        notifications := c.notifications ++ ["connected"],
        socket := some { s with writes := s.writes ++ ["@session " ++ c.sessionId ++ "\n"] } } := by
    simp [setupSession, setState, h1, h2]
  rw [hset, flushQueue]
  rw [flushLoop_live _ _ { s with writes := s.writes ++ ["@session " ++ c.sessionId ++ "\n"] }
    (by simp) h2 (by simp)]
  cases c
  simp_all [resolve]

/-- Folding send over a list of payloads with no live socket queues
them all, in order, and changes nothing else. -/
theorem foldl_send_dead (ps : List String) : ∀ (c : LilaClient), socketLive c = false →
    ps.foldl send c = { c with messageQueue := c.messageQueue ++ ps } := by
  induction ps with
  | nil =>
    intro c h
    cases c
    simp
  | cons p ps ih =>
    intro c h
    obtain ⟨soc, st, sid, q, nt, rs⟩ := c
    rw [List.foldl_cons, send_dead _ h p]
    rw [ih _ (by simpa [socketLive] using h)]
    simp

/-- The flush loop is the identity on an empty queue. -/
theorem flushLoop_nil (fuel : Nat) (c : LilaClient) (h : c.messageQueue = []) :
    flushLoop fuel c = c := by
  cases fuel with
  | zero => rfl
  | succ n =>
    cases c
    simp only at h
    subst h
    rfl

/-- The flush loop never changes the session id. -/
theorem flushLoop_sid (fuel : Nat) : ∀ (c : LilaClient), (flushLoop fuel c).sessionId = c.sessionId := by
  induction fuel with
  | zero => intro c; rfl
  | succ n ih =>
    intro c
    cases hq : c.messageQueue with
    | nil => rw [flushLoop_nil _ _ hq]
    | cons code rest =>
      rw [flushLoop_cons n c code rest hq]
      by_cases hc : code = ""
      · subst hc
        rw [if_pos (by simp), ih]
      · rw [if_neg (by simpa using hc), ih, send_sid]

/-- The socket of the client after the connection-established callback:
the handshake line followed by the truthy queued payloads is appended
to the write log. -/
theorem onConnected_socket (c : LilaClient) (s : Socket) (h1 : c.socket = some s)
    (h2 : s.destroyed = false) :
    (onConnected c).socket = some { s with
      writes := s.writes ++ ("@session " ++ c.sessionId ++ "\n") ::
        (c.messageQueue.filter (fun t => t != "")).map (fun t => t ++ "\n") } := by
  rw [onConnected, resolve_socket]
  have hset : setupSession (setState c "connected") =
      { c with
        state := "connected",
        notifications := c.notifications ++ ["connected"],
        socket := some { s with writes := s.writes ++ ["@session " ++ c.sessionId ++ "\n"] } } := by
    simp [setupSession, setState, h1, h2]
  rw [flushQueue, hset]
  rw [flushLoop_live _ _ { s with writes := s.writes ++ ["@session " ++ c.sessionId ++ "\n"] }
    (by simp) h2 (by simp)]
  simp

/-- The queue of the client after the connection-established callback
is empty. -/
theorem onConnected_queue (c : LilaClient) (s : Socket) (h1 : c.socket = some s)
    (h2 : s.destroyed = false) :
    (onConnected c).messageQueue = [] := by
  rw [onConnected, resolve_queue]
  have hset : setupSession (setState c "connected") =
      { c with
        state := "connected",
        notifications := c.notifications ++ ["connected"],
        socket := some { s with writes := s.writes ++ ["@session " ++ c.sessionId ++ "\n"] } } := by
    simp [setupSession, setState, h1, h2]
  rw [flushQueue, hset]
  rw [flushLoop_live _ _ { s with writes := s.writes ++ ["@session " ++ c.sessionId ++ "\n"] }
    (by simp) h2 (by simp)]

/-- The state of the client after the connection-established callback
is "connected". -/
theorem onConnected_state (c : LilaClient) (s : Socket) (h1 : c.socket = some s)
    (h2 : s.destroyed = false) :
    (onConnected c).state = "connected" := by
  rw [onConnected, resolve_state]
  have hset : setupSession (setState c "connected") =
      { c with
        state := "connected",
        notifications := c.notifications ++ ["connected"],
        socket := some { s with writes := s.writes ++ ["@session " ++ c.sessionId ++ "\n"] } } := by
    simp [setupSession, setState, h1, h2]
  rw [flushQueue, hset]
  rw [flushLoop_live _ _ { s with writes := s.writes ++ ["@session " ++ c.sessionId ++ "\n"] }
    (by simp) h2 (by simp)]

/-- No event ever changes the session id: it is generated once at
construction and is stable across reconnects. -/
theorem step_sessionId (c : LilaClient) (e : Event) : (step c e).sessionId = c.sessionId := by
  cases e with
  | connectCall =>
    by_cases hl : socketLive c = true <;> simp [step, connectStart, setState, hl]
  | connectSuccess =>
    cases hs : c.socket with
    | none => simp [step, hs]
    | some s =>
      by_cases hg : c.state = "connecting" ∧ s.destroyed = false
      · have : step c Event.connectSuccess = onConnected c := by
          simp [step, hs, hg]
        rw [this, onConnected, resolve_sid, flushQueue, flushLoop_sid]
        simp [setupSession, setState, hs, hg.2]
      · simp [step, hs, hg]
  | socketError =>
    cases hs : c.socket with
    | none => simp [step, hs]
    | some s => simp [step, hs, onError, setState]
  | socketClosed => simp [step, onClose, setState]
  | timeoutFire =>
    by_cases hg : c.state = "connecting"
    · cases hs : c.socket <;> simp [step, onTimeout, setState, hg, hs]
    · simp [step, onTimeout, hg]
  | remoteDestroyed =>
    cases hs : c.socket with
    | none => simp [step, hs]
    | some s => cases hd : s.destroyed <;> simp [step, hs, hd]
  | disconnectCall =>
    cases hs : c.socket <;> simp [step, disconnect, setState, hs]
  | sendCall code => simp [step, send_sid]

/-- Every event preserves the invariant: while isConnected holds (the
state reads "connected" and the handle is live) the queue is empty. -/
theorem step_preserves_queueInv (c : LilaClient) (e : Event)
    (hInv : isConnected c = true → c.messageQueue = []) :
    isConnected (step c e) = true → (step c e).messageQueue = [] := by
  cases e with
  | connectCall =>
    cases hl : socketLive c with
    | true => simpa [step, connectStart, hl] using hInv
    | false =>
      intro h
      simp [step, connectStart, hl, isConnected, setState] at h
  | connectSuccess =>
    cases hs : c.socket with
    | none => simpa [step, hs] using hInv
    | some s =>
      by_cases hg : c.state = "connecting" ∧ s.destroyed = false
      · intro _
        have hst : step c Event.connectSuccess = onConnected c := by
          simp [step, hs, hg]
        rw [hst, onConnected_queue c s hs hg.2]
      · simpa [step, hs, hg] using hInv
  | socketError =>
    cases hs : c.socket with
    | none => simpa [step, hs] using hInv
    | some s =>
      intro h
      simp [step, hs, onError, isConnected, setState] at h
  | socketClosed =>
    intro h
    simp [step, onClose, isConnected, setState] at h
  | timeoutFire =>
    by_cases hg : c.state = "connecting"
    · intro h
      cases hs : c.socket with
      | none => simp [step, onTimeout, hg, hs, isConnected, setState] at h
      | some s => simp [step, onTimeout, hg, hs, isConnected, setState] at h
    · simpa [step, onTimeout, hg] using hInv
  | remoteDestroyed =>
    cases hs : c.socket with
    | none => simpa [step, hs] using hInv
    | some s =>
      cases hd : s.destroyed with
      | true => simpa [step, hs, hd] using hInv
      | false =>
        intro h
        simp [step, hs, hd, isConnected, socketLive] at h
  | disconnectCall =>
    intro h
    cases hs : c.socket <;> simp [step, disconnect, setState, hs, isConnected] at h
  | sendCall code =>
    cases hs : c.socket with
    | none =>
      intro h
      simp [step, send, hs, isConnected, socketLive] at h
    | some s =>
      cases hd : s.destroyed with
      | true =>
        intro h
        simp [step, send, hs, hd, isConnected, socketLive] at h
      | false =>
        intro h
        rw [step, send_live c s hs hd] at h ⊢
        have hst : c.state = "connected" := by
          simpa [isConnected, socketLive, hd] using h
        have hc : isConnected c = true := by
          simp [isConnected, socketLive, hs, hd, hst]
        simpa using hInv hc

/-- In every state reachable from construction by any event sequence,
the queue is empty whenever isConnected holds. -/
theorem runClient_queueInv (sid : String) (es : List Event) :
    isConnected (runClient (initialClient sid) es) = true →
    (runClient (initialClient sid) es).messageQueue = [] := by
  rw [runClient]
  suffices h : ∀ (c : LilaClient), (isConnected c = true → c.messageQueue = []) →
      (isConnected (es.foldl step c) = true → (es.foldl step c).messageQueue = []) by
    exact h (initialClient sid) (fun _ => rfl)
  induction es with
  | nil => intro c h; exact h
  | cons e es ih =>
    intro c h
    exact ih _ (step_preserves_queueInv c e h)

/-- Claim C1, counterexample: the empty string is a payload, and a
send of the empty string issued while disconnected is queued but then
silently dropped by the flush (the loop tests the shifted entry for
truthiness), so it is never transmitted as its own line-terminated
unit: after the connect completes, the handle carries only the
handshake line, and the queue is empty. -/
theorem C1_counterexample :
    socketWrites (runClient (initialClient "1")
      [Event.sendCall "", Event.connectCall, Event.connectSuccess]) = ["@session 1\n"] ∧
    (runClient (initialClient "1")
      [Event.sendCall "", Event.connectCall, Event.connectSuccess]).messageQueue = [] := by
  decide

/-- Claim C1, amended: for every sequence of payloads passed to send
while no live handle exists, after a subsequent successful connect the
queued payloads that are non-empty strings are all transmitted over
the handle in FIFO order, each as its own line-terminated unit, after
the handshake line and before any payload from a later send call;
empty-string payloads are silently dropped by the flush. -/
theorem C1_queue_flush_order (c : LilaClient) (ps : List String) (h : socketLive c = false) :
    socketWrites (step (connectStart (ps.foldl send c)).fst Event.connectSuccess) =
      ("@session " ++ c.sessionId ++ "\n") ::
        ((c.messageQueue ++ ps).filter (fun t => t != "")).map (fun t => t ++ "\n") ∧
    (step (connectStart (ps.foldl send c)).fst Event.connectSuccess).messageQueue = [] ∧
    ∀ d, socketWrites (send (step (connectStart (ps.foldl send c)).fst Event.connectSuccess) d) =
      socketWrites (step (connectStart (ps.foldl send c)).fst Event.connectSuccess) ++ [d ++ "\n"] := by
  rw [foldl_send_dead ps c h]
  have hl1 : socketLive { c with messageQueue := c.messageQueue ++ ps } = false := h
  have h2 : (connectStart { c with messageQueue := c.messageQueue ++ ps }).fst =
      { c with
        messageQueue := c.messageQueue ++ ps,
        state := "connecting",
        notifications := c.notifications ++ ["connecting"],
        socket := some { writes := [], destroyed := false },
        resolved := none } := by
    simp [connectStart, hl1, setState]
  rw [h2]
  have h3 : step
      { c with
        messageQueue := c.messageQueue ++ ps,
        state := "connecting",
        notifications := c.notifications ++ ["connecting"],
        socket := some { writes := [], destroyed := false },
        resolved := none } Event.connectSuccess =
      onConnected
      { c with
        messageQueue := c.messageQueue ++ ps,
        state := "connecting",
        notifications := c.notifications ++ ["connecting"],
        socket := some { writes := [], destroyed := false },
        resolved := none } := by
    simp [step]
  rw [h3]
  rw [onConnected_eq _ { writes := [], destroyed := false } rfl rfl rfl]
  refine ⟨by simp [socketWrites], by simp, ?_⟩
  intro d
  simp [send, socketWrites]

/-- Claim C1, witness: from a fresh client, sending "a" then "b" while
disconnected and then connecting transmits the handshake line followed
by "a" and "b", each line-terminated, in order. -/
theorem C1_queue_flush_order_witness :
    socketLive (initialClient "1") = false ∧
    socketWrites (step (connectStart (["a", "b"].foldl send (initialClient "1"))).fst
      Event.connectSuccess) = ["@session 1\n", "a\n", "b\n"] :=
  ⟨rfl, ((C1_queue_flush_order (initialClient "1") ["a", "b"] rfl).1).trans (by decide)⟩

/-- Claim C3, counterexample: after a first connect call the client is
still in the "connecting" state, yet a second connect call resolves
true immediately — not the in-flight result and not only when already
connected: the in-flight connect can still resolve false (here via a
socket error). -/
theorem C3_counterexample :
    (runClient (initialClient "1") [Event.connectCall]).state = "connecting" ∧
    (connectStart (runClient (initialClient "1") [Event.connectCall])).snd = some true ∧
    (step (runClient (initialClient "1") [Event.connectCall]) Event.socketError).resolved =
      some false := by
  decide

/-- Claim C3, amended: connect resolves true when the connected state
is reached and false when the error state is reached (including on
timeout); a connect call made while a handle exists and is not
destroyed — which includes the window while a previous connect is
still connecting — returns true immediately without opening a second
handle or re-emitting the handshake, rather than returning the
in-flight result. -/
theorem C3_connect_semantics (c : LilaClient) :
    (socketLive c = true → connectStart c = (c, some true)) ∧
    (c.state = "connecting" → socketLive c = true → c.resolved = none →
      (step c Event.connectSuccess).state = "connected" ∧
      (step c Event.connectSuccess).resolved = some true) ∧
    (c.socket.isSome = true → c.resolved = none →
      (step c Event.socketError).state = "error" ∧
      (step c Event.socketError).resolved = some false) ∧
    (c.state = "connecting" → c.resolved = none →
      (step c Event.timeoutFire).state = "error" ∧
      (step c Event.timeoutFire).resolved = some false) := by
  refine ⟨?_, ?_, ?_, ?_⟩
  · intro h
    simp [connectStart, h]
  · intro h1 h2 h3
    cases hs : c.socket with
    | none => simp [socketLive, hs] at h2
    | some s =>
      have hd : s.destroyed = false := by
        simpa [socketLive, hs] using h2
      have hst : step c Event.connectSuccess = onConnected c := by
        simp [step, hs, h1, hd]
      rw [hst, onConnected_eq c s hs hd h3]
      simp
  · intro h1 h2
    cases hs : c.socket with
    | none => simp [hs] at h1
    | some s =>
      have hst : step c Event.socketError = onError c := by
        simp [step, hs]
      rw [hst, onError]
      constructor
      · rw [resolve_state]
        rfl
      · exact resolve_pending _ _ h2
  · intro h1 h2
    have hst : step c Event.timeoutFire = onTimeout c := rfl
    rw [hst, onTimeout, if_pos h1]
    cases hs : c.socket with
    | none =>
      constructor
      · rw [resolve_state]
        rfl
      · exact resolve_pending _ _ h2
    | some s =>
      constructor
      · rw [resolve_state]
        rfl
      · exact resolve_pending _ _ (by simpa using h2)

/-- Claim C3, witness: the amended connect semantics evaluated on the
client obtained by one connect call from a fresh instance. -/
theorem C3_connect_semantics_witness :
    socketLive (runClient (initialClient "1") [Event.connectCall]) = true ∧
    (runClient (initialClient "1") [Event.connectCall]).resolved = none ∧
    connectStart (runClient (initialClient "1") [Event.connectCall]) =
      (runClient (initialClient "1") [Event.connectCall], some true) ∧
    (step (runClient (initialClient "1") [Event.connectCall]) Event.connectSuccess).resolved =
      some true :=
  ⟨by decide, by decide,
    (C3_connect_semantics (runClient (initialClient "1") [Event.connectCall])).1 (by decide),
    ((C3_connect_semantics (runClient (initialClient "1") [Event.connectCall])).2.1
      (by decide) (by decide) (by decide)).2⟩

/-- Claim C4, counterexample: while a connect is still in flight the
state is "connecting" — not connected — yet send does not queue: it
writes the payload straight to the half-open handle, because the
branch tests the handle, not the state. -/
theorem C4_counterexample :
    (runClient (initialClient "1") [Event.connectCall]).state = "connecting" ∧
    (send (runClient (initialClient "1") [Event.connectCall]) "x").messageQueue = [] ∧
    socketWrites (send (runClient (initialClient "1") [Event.connectCall]) "x") = ["x\n"] := by
  decide

/-- Claim C4, amended: send queues exactly when no live handle exists
(the socket is absent or destroyed), in which case the payload is
appended to the queue, nothing is transmitted and the call returns
without failing; when a live handle exists — even while the state is
still "connecting" — send immediately transmits the payload followed
by a newline as a single unit and leaves the queue untouched. -/
theorem C4_send_semantics (c : LilaClient) (text : String) :
    (socketLive c = false →
      (send c text).messageQueue = c.messageQueue ++ [text] ∧
      socketWrites (send c text) = socketWrites c ∧
      (send c text).state = c.state) ∧
    (socketLive c = true →
      socketWrites (send c text) = socketWrites c ++ [text ++ "\n"] ∧
      (send c text).messageQueue = c.messageQueue) := by
  constructor
  · intro h
    rw [send_dead c h text]
    exact ⟨rfl, rfl, rfl⟩
  · intro h
    cases hs : c.socket with
    | none => simp [socketLive, hs] at h
    | some s =>
      have hd : s.destroyed = false := by
        simpa [socketLive, hs] using h
      rw [send_live c s hs hd text]
      constructor
      · simp [socketWrites, hs]
      · rfl

/-- Claim C4, witness: the amended send semantics evaluated on a
fresh (disconnected, handle-less) client. -/
theorem C4_send_semantics_witness :
    socketLive (initialClient "1") = false ∧
    (send (initialClient "1") "x").messageQueue = ["x"] ∧
    socketWrites (send (initialClient "1") "x") = [] :=
  ⟨rfl, ((C4_send_semantics (initialClient "1") "x").1 rfl).1,
    ((C4_send_semantics (initialClient "1") "x").1 rfl).2.1⟩

/-- Claim C5 (confirmed): when the timeout callback fires while the
state is still "connecting" and the connect promise is unresolved, the
state becomes "error", the promise resolves false, and the half-open
handle is destroyed; the timeout constant is 5000 milliseconds. -/
theorem C5_timeout_semantics (c : LilaClient) (s : Socket) (h1 : c.state = "connecting")
    (h2 : c.socket = some s) (h3 : c.resolved = none) :
    (step c Event.timeoutFire).state = "error" ∧
    (step c Event.timeoutFire).resolved = some false ∧
    (step c Event.timeoutFire).socket = some { s with destroyed := true } ∧
    connectTimeoutMs = 5000 := by
  have hst : step c Event.timeoutFire = onTimeout c := rfl
  rw [hst, onTimeout, if_pos h1, h2]
  refine ⟨by rw [resolve_state]; rfl, ?_, by rw [resolve_socket]; simp [setState], rfl⟩
  exact resolve_pending _ _ (by simpa using h3)

/-- Claim C5, witness: the timeout semantics evaluated on the client
obtained by one connect call from a fresh instance. -/
theorem C5_timeout_semantics_witness :
    (runClient (initialClient "1") [Event.connectCall]).state = "connecting" ∧
    (step (runClient (initialClient "1") [Event.connectCall]) Event.timeoutFire).state = "error" ∧
    (step (runClient (initialClient "1") [Event.connectCall]) Event.timeoutFire).resolved =
      some false :=
  ⟨by decide,
    (C5_timeout_semantics (runClient (initialClient "1") [Event.connectCall])
      { writes := [], destroyed := false } (by decide) (by decide) (by decide)).1,
    (C5_timeout_semantics (runClient (initialClient "1") [Event.connectCall])
      { writes := [], destroyed := false } (by decide) (by decide) (by decide)).2.1⟩

/-- Claim C6, counterexample: a payload sent while the handle is still
connecting is written to the new handle before the handshake, so on
this transition into "connected" the first bytes written to the newly
established handle are "x" and a newline, not the handshake line. -/
theorem C6_counterexample :
    (runClient (initialClient "1")
      [Event.connectCall, Event.sendCall "x", Event.connectSuccess]).state = "connected" ∧
    socketWrites (runClient (initialClient "1")
      [Event.connectCall, Event.sendCall "x", Event.connectSuccess]) =
      ["x\n", "@session 1\n"] := by
  decide

/-- Claim C6, amended: on every transition into the connected state
the handshake line "@session id newline" is written to the handle
before any queued payload is flushed, where the id is the session
identifier generated once at instance construction and never changed
by any event (so the same id is emitted on every reconnect); the
handshake is the first write on the handle exactly when nothing was
written to it while it was still connecting. -/
theorem C6_handshake_semantics (c : LilaClient) (s : Socket) (h1 : c.socket = some s)
    (h2 : s.destroyed = false) (h3 : c.state = "connecting") :
    socketWrites (step c Event.connectSuccess) =
      s.writes ++ ("@session " ++ c.sessionId ++ "\n") ::
        (c.messageQueue.filter (fun t => t != "")).map (fun t => t ++ "\n") ∧
    (s.writes = [] → (socketWrites (step c Event.connectSuccess)).head? =
      some ("@session " ++ c.sessionId ++ "\n")) ∧
    (∀ e, (step c e).sessionId = c.sessionId) := by
  have hst : step c Event.connectSuccess = onConnected c := by
    simp [step, h1, h3, h2]
  have hsw : socketWrites (step c Event.connectSuccess) =
      s.writes ++ ("@session " ++ c.sessionId ++ "\n") ::
        (c.messageQueue.filter (fun t => t != "")).map (fun t => t ++ "\n") := by
    rw [hst]
    simp [socketWrites, onConnected_socket c s h1 h2]
  refine ⟨hsw, ?_, fun e => step_sessionId c e⟩
  intro hw
  rw [hsw, hw]
  simp

/-- Claim C6, witness: the handshake semantics evaluated on the client
obtained by one connect call from a fresh instance: the handshake is
the first write. -/
theorem C6_handshake_semantics_witness :
    (runClient (initialClient "1") [Event.connectCall]).state = "connecting" ∧
    socketWrites (step (runClient (initialClient "1") [Event.connectCall])
      Event.connectSuccess) = ["@session 1\n"] :=
  ⟨by decide,
    ((C6_handshake_semantics (runClient (initialClient "1") [Event.connectCall])
      { writes := [], destroyed := false } (by decide) (by decide) (by decide)).1).trans
      (by decide)⟩

/-- Claim C7, counterexample: after the remote end tears the handle
down but before the close callback has run, the state still reads
"connected" while a send has already filled the queue — the queue is
non-empty in a reachable state whose connection state is
"connected". -/
theorem C7_counterexample :
    (runClient (initialClient "1")
      [Event.connectCall, Event.connectSuccess, Event.remoteDestroyed,
        Event.sendCall "x"]).state = "connected" ∧
    (runClient (initialClient "1")
      [Event.connectCall, Event.connectSuccess, Event.remoteDestroyed,
        Event.sendCall "x"]).messageQueue = ["x"] := by
  decide

/-- Claim C7, amended: in every state reachable from construction by
any sequence of events, the pending-send queue is non-empty only when
isConnected is false — that is, only when the state is not "connected"
or the handle is absent or destroyed; in the window between handle
teardown and the close notification the state alone can still read
"connected" with a non-empty queue. -/
theorem C7_queue_invariant (sid : String) (es : List Event)
    (h : (runClient (initialClient sid) es).messageQueue ≠ []) :
    isConnected (runClient (initialClient sid) es) = false := by
  cases hic : isConnected (runClient (initialClient sid) es) with
  | false => rfl
  | true => exact absurd (runClient_queueInv sid es hic) h

/-- Claim C7, witness: the queue invariant evaluated on a trace whose
final queue is non-empty. -/
theorem C7_queue_invariant_witness :
    (runClient (initialClient "1") [Event.sendCall "x"]).messageQueue ≠ [] ∧
    isConnected (runClient (initialClient "1") [Event.sendCall "x"]) = false :=
  ⟨by decide, C7_queue_invariant "1" [Event.sendCall "x"] (by decide)⟩

/-- Claim C9 (confirmed): calling disconnect while the state is
already "disconnected" still invokes the registered state-change
observer with "disconnected", because setState notifies the observer
on every internal state assignment, including assignments that do not
change the state value. -/
theorem C9_notify_on_assignment (c : LilaClient) (h : c.state = "disconnected") :
    (disconnect c).notifications = c.notifications ++ ["disconnected"] ∧
    (disconnect c).state = "disconnected" ∧
    (∀ (d : LilaClient) (st : String), (setState d st).notifications = d.notifications ++ [st]) := by
  refine ⟨?_, ?_, fun d st => rfl⟩
  · cases hs : c.socket <;> simp [disconnect, setState, hs]
  · cases hs : c.socket <;> simp [disconnect, setState, hs]

/-- Claim C9, witness: the notification semantics evaluated on a fresh
client, which is already disconnected. -/
theorem C9_notify_on_assignment_witness :
    (initialClient "1").state = "disconnected" ∧
    (disconnect (initialClient "1")).notifications = ["disconnected"] :=
  ⟨rfl, (C9_notify_on_assignment (initialClient "1") rfl).1.trans (by decide)⟩

/-- Claim C2, counterexample: the classification branch for the
result field tests its truthiness, not its presence.  The chunk that
parses to an object whose result field holds false (as the real JSON
parser produces for the braced document with result false) is
delivered, but classified by the generic branch, not as a value
result, although a result field is present. -/
theorem C2_counterexample :
    handleData parseResultFalse "cex" = [Json.obj [("result", Json.bool false)]] ∧
    LilaSession.classify (Json.obj [("result", Json.bool false)]) =
      RespClass.unclassified (Json.obj [("result", Json.bool false)]) ∧
    ∀ v, LilaSession.classify (Json.obj [("result", Json.bool false)]) ≠
      RespClass.valueResult v := by
  refine ⟨rfl, rfl, ?_⟩
  intro v hv
  exact RespClass.noConfusion hv

/-- Claim C2, amended: an empty or whitespace-only chunk produces no
response event.  A chunk that parses as a structured payload is
delivered and classified by discriminator fields: status strictly
equal to "success" yields Success, else status strictly equal to
"error" yields ErrorResult, else a present and truthy result field
yields ValueResult, and any other payload — including one whose
result field is present but falsy — is Unclassified.  A payload of
JSON null makes the handler throw on field access, and the catch then
also delivers the raw wrapper.  A chunk that fails to parse is
delivered as the raw wrapper object whose data field carries the
entire chunk text verbatim. -/
theorem C2_classification (parse : String → Option Json) (data : String) :
    (isBlank data = true → handleData parse data = []) ∧
    (isBlank data = false → ∀ r, parse data = some r →
      (r ≠ Json.null → handleData parse data = [r]) ∧
      (r = Json.null → handleData parse data = [Json.null, rawWrap data]) ∧
      (Json.isStr (Json.getField r "status") "success" = true →
        LilaSession.classify r = RespClass.success (Json.getField r "message")) ∧
      (Json.isStr (Json.getField r "status") "success" = false →
        Json.isStr (Json.getField r "status") "error" = true →
        LilaSession.classify r = RespClass.errorResult (Json.getField r "message")) ∧
      (Json.isStr (Json.getField r "status") "success" = false →
        Json.isStr (Json.getField r "status") "error" = false →
        ∀ v, Json.getField r "result" = some v → Json.truthyV v = true →
        LilaSession.classify r = RespClass.valueResult v) ∧
      (Json.isStr (Json.getField r "status") "success" = false →
        Json.isStr (Json.getField r "status") "error" = false →
        Json.truthy (Json.getField r "result") = false →
        LilaSession.classify r = RespClass.unclassified r)) ∧
    (isBlank data = false → parse data = none → handleData parse data = [rawWrap data]) := by
  refine ⟨?_, ?_, ?_⟩
  · intro hb
    simp [handleData, hb]
  · intro hb r hp
    refine ⟨?_, ?_, ?_, ?_, ?_, ?_⟩
    · intro hr
      have hro : LilaSession.handleResponseOpt r = some (LilaSession.classify r) := by
        cases r <;> simp_all [LilaSession.handleResponseOpt]
      simp [handleData, hb, hp, hro]
    · intro hr
      subst hr
      simp [handleData, hb, hp, LilaSession.handleResponseOpt]
    · intro hsucc
      simp [LilaSession.classify, hsucc]
    · intro hsucc herr
      simp [LilaSession.classify, hsucc, herr]
    · intro hsucc herr v hv htr
      simp [LilaSession.classify, hsucc, herr, hv, htr]
    · intro hsucc herr htr
      cases hv : Json.getField r "result" with
      | none => simp [LilaSession.classify, hsucc, herr, hv]
      | some v =>
        have htv : Json.truthyV v = false := by
          simpa [Json.truthy, hv] using htr
        simp [LilaSession.classify, hsucc, herr, hv, htv]
  · intro hb hp
    simp [handleData, hb, hp]

/-- Claim C2, witness: the classification semantics evaluated on a
chunk that parses to an object whose status field is "success": the
chunk is not blank, it is delivered as parsed, and it classifies as
Success with no message. -/
theorem C2_classification_witness :
    isBlank "ok" = false ∧
    parseSuccessOnly "ok" = some (Json.obj [("status", Json.str "success")]) ∧
    handleData parseSuccessOnly "ok" = [Json.obj [("status", Json.str "success")]] ∧
    LilaSession.classify (Json.obj [("status", Json.str "success")]) = RespClass.success none := by
  refine ⟨rfl, rfl, ?_, ?_⟩
  · exact ((C2_classification parseSuccessOnly "ok").2.1 rfl
      (Json.obj [("status", Json.str "success")]) rfl).1 (by intro hh; cases hh)
  · exact (((C2_classification parseSuccessOnly "ok").2.1 rfl
      (Json.obj [("status", Json.str "success")]) rfl).2.2.1 rfl).trans rfl

end LilaClient

namespace LilaServer

/-- No public operation ever assigns the process field: it stays none
from construction onward. -/
theorem runServer_process_none (ops : List ServerOp) : (runServer ops).process = none := by
  rw [runServer]
  suffices h : ∀ s : LilaServer, s.process = none → (ops.foldl serverStep s).process = none by
    exact h initialServer rfl
  induction ops with
  | nil => intro s h; exact h
  | cons op ops ih =>
    intro s h
    rw [List.foldl_cons]
    refine ih _ ?_
    cases op with
    | startOp o => cases o <;> simp [serverStep, start, h, setState]
    | stopOp => cases ht : s.terminal <;> simp [serverStep, stop, h, ht, setState]

/-- Claim C8 (confirmed): start is a no-op returning success when a
process handle is held; otherwise it passes through "starting" and
then transitions to "running" returning true when the launch succeeds,
or to "error" returning false when the launch throws.  The embedding
returns the boolean totally, so no failure ever reaches the caller. -/
theorem C8_start_semantics (s : LilaServer) :
    (∀ (p : Nat), s.process = some p → ∀ o, start o s = (s, true)) ∧
    (s.process = none →
      (start LaunchOutcome.ok s).snd = true ∧
      (start LaunchOutcome.ok s).fst.state = "running" ∧
      (start LaunchOutcome.ok s).fst.stateHistory = s.stateHistory ++ ["starting", "running"] ∧
      (start LaunchOutcome.throws s).snd = false ∧
      (start LaunchOutcome.throws s).fst.state = "error" ∧
      (start LaunchOutcome.throws s).fst.stateHistory = s.stateHistory ++ ["starting", "error"]) := by
  constructor
  · intro p hp o
    simp [start, hp]
  · intro hp
    refine ⟨?_, ?_, ?_, ?_, ?_, ?_⟩ <;> simp [start, hp, setState]

/-- Claim C8, witness: the start semantics evaluated on a server
holding a handle (no-op returning true) and on a fresh server (runs
through starting to running and returns true). -/
theorem C8_start_semantics_witness :
    heldServer.process = some 0 ∧
    start LaunchOutcome.ok heldServer = (heldServer, true) ∧
    initialServer.process = none ∧
    (start LaunchOutcome.ok initialServer).fst.state = "running" ∧
    (start LaunchOutcome.ok initialServer).snd = true :=
  ⟨rfl, (C8_start_semantics heldServer).1 0 rfl LaunchOutcome.ok, rfl,
    ((C8_start_semantics initialServer).2 rfl).2.1,
    ((C8_start_semantics initialServer).2 rfl).1⟩

/-- Claim C10 (confirmed): in every state reachable by any sequence of
public operations the process handle is none — no operation ever
assigns it — so the early-return branch of start and the kill branch
of stop are never taken, and every start call that launches
successfully, including one made while the state is already "running",
creates a fresh terminal and shows it. -/
theorem C10_process_never_assigned (ops : List ServerOp) :
    (runServer ops).process = none ∧
    (start LaunchOutcome.ok (runServer ops)).snd = true ∧
    (start LaunchOutcome.ok (runServer ops)).fst.terminalsCreated =
      (runServer ops).terminalsCreated + 1 ∧
    (start LaunchOutcome.ok (runServer ops)).fst.terminal =
      some (runServer ops).terminalsCreated ∧
    (start LaunchOutcome.ok (runServer ops)).fst.shownTerminals =
      (runServer ops).shownTerminals ++ [(runServer ops).terminalsCreated] ∧
    (stop (runServer ops)).process = none := by
  have hp := runServer_process_none ops
  refine ⟨hp, ?_, ?_, ?_, ?_, ?_⟩ <;>
    cases ht : (runServer ops).terminal <;> simp [start, stop, hp, ht, setState]

end LilaServer

end Lilacode
